import Mathlib

/-!
Verification of the fetch wrapper in this repository.

The repository contains two variants of the same code:
* src/js/utils/fetch/fetch.js, and
* the annotated listing embedded in src/unnamed/part_000 (namespace Doc below).

The JavaScript is shallowly embedded: the asynchronous executor becomes a
pure function of the request configuration and of a transport oracle that
gives the outcome of each numbered attempt.  Thrown JavaScript values become
an explicit error type, and the delays slept between attempts are collected
in a trace so the backoff schedule can be stated.
-/

/-- Payload extracted from a failing response by parseErrorResponse:
either a decoded JSON value, a plain string, or the JavaScript null. -/
inductive ErrorPayload where
  | jsonVal (v : String)
  | strVal (s : String)
  | nullVal
deriving Repr, DecidableEq

/-- A thrown JavaScript error value, with the fields the code reads or
writes: name, the TypeError class membership used by the instanceof check,
and the optional status, data, url, method and attempt properties
(a missing property is none, matching undefined). -/
structure JsError where
  name : String
  message : String := ""
  isTypeError : Bool := false
  status : Option Nat := none
  data : Option ErrorPayload := none
  url : Option String := none
  method : Option String := none
  attempt : Option Nat := none
deriving Repr, DecidableEq

/-- A decoded successful body, tagged with the decoder that produced it
(response.json / response.text / response.blob / response.arrayBuffer). -/
inductive BodyVal where
  | json (v : String)
  | text (s : String)
  | blob (b : String)
  | buffer (b : String)
deriving Repr, DecidableEq

/-- A transport response: status, the Content-Type header (none when the
header is absent), and the four one-shot body readers, each of which may
fail with a thrown error. -/
structure Response where
  status : Nat
  contentType : Option String := none
  jsonBody : Except JsError String := .error { name := "SyntaxError" }
  textBody : Except JsError String := .error { name := "TypeError", isTypeError := true }
  blobBody : Except JsError String := .error { name := "TypeError", isTypeError := true }
  bufferBody : Except JsError String := .error { name := "TypeError", isTypeError := true }

/-- Outcome of issuing one request on the transport: either the promise
rejects with a thrown error, or a response object is produced. -/
inductive TransportOutcome where
  | throwErr (e : JsError)
  | resp (r : Response)

/-- The caller supplied body: a structured plain object, a FormData
container, or a preformatted string.  Each carries an opaque token. -/
inductive BodyInput where
  | obj (v : String)
  | formData (tag : String)
  | str (s : String)
deriving Repr, DecidableEq

/-- JavaScript truthiness of a body value: objects are truthy, a string is
truthy iff nonempty. -/
def bodyTruthy : BodyInput → Bool
  | .obj _ => true
  | .formData _ => true
  | .str s => !(s == "")

/-- The body attached to the outgoing request: either the JSON
serialization of a structured object, or the original value passed through. -/
inductive SentBody where
  | jsonOf (v : String)
  | raw (b : BodyInput)
deriving Repr, DecidableEq

/-- The signal slot of the request options: the external handle when given,
else a timeout-armed signal when timeout is nonzero, else nothing. -/
inductive SignalKind where
  | external
  | timed (ms : Nat)
  | noSignal
deriving Repr, DecidableEq

/-- The responseType option: auto, json, text or blob. -/
inductive ResponseType where
  | auto
  | json
  | text
  | blob
deriving Repr, DecidableEq

/-- The string value of a responseType option, as it appears in the code. -/
def ResponseType.str : ResponseType → String
  | .auto => "auto"
  | .json => "json"
  | .text => "text"
  | .blob => "blob"

/-- The configuration bag of fetchEnhanced with the default values of the
source.  query values use none for undefined; signal records whether an
external cancellation handle was supplied. -/
structure FetchConfig where
  method : String := "GET"
  headers : List (String × String) := []
  body : Option BodyInput := none
  query : List (String × Option String) := []
  retries : Nat := 3
  retryDelay : Nat := 1000
  timeout : Nat := 8000
  responseType : ResponseType := .auto
  validateStatus : Nat → Bool := fun status => decide (200 ≤ status) && decide (status < 300)
  debug : Bool := false
  signal : Bool := false

/-- The options object handed to the transport: normalized method, cloned
and possibly extended headers, the processed body, and the signal slot. -/
structure RequestOptions where
  method : String
  headers : List (String × String)
  body : Option SentBody := none
  signal : SignalKind := .noSignal
deriving Repr, DecidableEq

/-- Lookup of a key in a JavaScript object literal modelled as an
association list (case sensitive, first binding wins). -/
def getHeader : List (String × String) → String → Option String
  | [], _ => none
  | p :: rest, k => if p.1 = k then some p.2 else getHeader rest k

/-- Assignment of a key in a JavaScript object literal: replace the
binding when present, append it otherwise. -/
def setHeader : List (String × String) → String → String → List (String × String)
  | [], k, v => [(k, v)]
  | p :: rest, k, v => if p.1 = k then (p.1, v) :: rest else p :: setHeader rest k v

/-- The check sub.isPrefixOf hay on character lists, written out so it
reduces in the kernel. -/
def chunkLeads : List Char → List Char → Bool
  | [], _ => true
  | _ :: _, [] => false
  | a :: as, b :: bs => a == b && chunkLeads as bs

/-- Substring search on character lists. -/
def hasSub : List Char → List Char → Bool
  | [], sub => sub.isEmpty
  | c :: t, sub => chunkLeads sub (c :: t) || hasSub t sub

/-- The JavaScript String.includes method. -/
def jsIncludes (s sub : String) : Bool :=
  hasSub s.data sub.data

/-- The JavaScript String.toUpperCase method on the method names the code
handles (characterwise uppercasing). -/
def jsToUpper (s : String) : String :=
  ⟨s.data.map Char.toUpper⟩

/- ===== URL construction (model of the host URL / URLSearchParams
facility used by the source: application/x-www-form-urlencoded
serialization of the appended query parameters) ===== -/

/-- Uppercase hexadecimal digit of a value below 16. -/
def hexDigit (n : Nat) : Char :=
  match n % 16 with
  | 0 => '0' | 1 => '1' | 2 => '2' | 3 => '3' | 4 => '4' | 5 => '5' | 6 => '6' | 7 => '7'
  | 8 => '8' | 9 => '9' | 10 => 'A' | 11 => 'B' | 12 => 'C' | 13 => 'D' | 14 => 'E' | _ => 'F'

/-- UTF-8 bytes of a character. -/
def utf8Bytes (c : Char) : List Nat :=
  let n := c.toNat
  if n < 128 then [n]
  else if n < 2048 then [192 + n / 64, 128 + n % 64]
  else if n < 65536 then [224 + n / 4096, 128 + (n / 64) % 64, 128 + n % 64]
  else [240 + n / 262144, 128 + (n / 4096) % 64, 128 + (n / 64) % 64, 128 + n % 64]

/-- Percent-escape of one byte. -/
def encByte (b : Nat) : List Char :=
  ['%', hexDigit (b / 16 % 16), hexDigit (b % 16)]

/-- Characters the form-urlencoded serializer leaves unescaped. -/
def formSafe (c : Char) : Bool :=
  (decide ('a' ≤ c) && decide (c ≤ 'z')) || (decide ('A' ≤ c) && decide (c ≤ 'Z')) ||
  (decide ('0' ≤ c) && decide (c ≤ '9')) || c == '*' || c == '-' || c == '.' || c == '_'

/-- Encoding of one character: kept when safe, space becomes a plus,
everything else is percent-escaped bytewise. -/
def encodeChar (c : Char) : List Char :=
  if formSafe c then [c]
  else if c == ' ' then ['+']
  else (utf8Bytes c).flatMap encByte

/-- Encoding of a character list. -/
def encodeChars (l : List Char) : List Char :=
  l.flatMap encodeChar

/-- The query entries that survive the value !== undefined filter of the
forEach loop, paired with their string values. -/
def definedEntries (q : List (String × Option String)) : List (String × String) :=
  q.filterMap (fun kv => kv.2.map (fun v => (kv.1, v)))

/-- The serialized key=value piece of one defined entry. -/
def encPairChars (kv : String × String) : List Char :=
  encodeChars kv.1.data ++ '=' :: encodeChars kv.2.data

/-- Joining of pieces with a separator character. -/
def joinPieces (sep : Char) : List (List Char) → List Char
  | [] => []
  | [p] => p
  | p :: q :: ps => p ++ sep :: joinPieces sep (q :: ps)

/-- Splitting of a character list at a separator character (inverse of
joinPieces when no piece holds the separator). -/
def splitChar (sep : Char) : List Char → List (List Char)
  | [] => [[]]
  | c :: cs =>
    if c = sep then [] :: splitChar sep cs
    else
      match splitChar sep cs with
      | [] => [[c]]
      | p :: ps => (c :: p) :: ps

/-- The serialized query string of the appended search parameters. -/
def buildQueryString (q : List (String × Option String)) : String :=
  ⟨joinPieces '&' ((definedEntries q).map encPairChars)⟩

/-- The final URL: the base locator (assumed absolute and without a query
of its own) with the serialized appended parameters.  Models
finalUrl.toString() after the searchParams.append loop. -/
def buildFinalUrl (url : String) (q : List (String × Option String)) : String :=
  if definedEntries q = [] then url else url ++ "?" ++ buildQueryString q

/- ===== src/js/utils/fetch/fetch.js ===== -/

/-- The FetchError constructor of fetch.js: name FetchError, the given
message, status and data. -/
def mkFetchError (message : String) (status : Nat) (data : ErrorPayload) : JsError :=
  { name := "FetchError", message := message, status := some status, data := some data }

/-- isFatalError of fetch.js: AbortError by name, a TypeError by class, or
a truthy status in [400, 500). -/
def isFatalError (e : JsError) : Bool :=
  e.name == "AbortError" || e.isTypeError ||
  (match e.status with
   | some s => !(s == 0) && decide (400 ≤ s) && decide (s < 500)
   | none => false)

/-- enhanceError of fetch.js: mutate the url, method and attempt
properties of the thrown value before rethrowing it. -/
def enhanceError (e : JsError) (url method : String) (attempt : Nat) : JsError :=
  { e with url := some url, method := some method, attempt := some attempt }

/-- parseResponse of fetch.js on the embedded response model.  A failing
body reader propagates its thrown error. -/
def parseResponse (r : Response) (responseType : ResponseType) : Except JsError BodyVal :=
  let type := if responseType = .auto then r.contentType.getD "" else responseType.str
  if jsIncludes type "json" || responseType = .json then r.jsonBody.map .json
  else if jsIncludes type "text" || responseType = .text then r.textBody.map .text
  else if jsIncludes type "octet-stream" || responseType = .blob then r.blobBody.map .blob
  else r.bufferBody.map .buffer

/-- parseErrorResponse of fetch.js: try JSON, then text, then null.  The
catch-all blocks make it a total function of the response. -/
def parseErrorResponse (r : Response) : ErrorPayload :=
  match r.jsonBody with
  | .ok v => .jsonVal v
  | .error _ =>
    match r.textBody with
    | .ok s => .strVal s
    | .error _ => .nullVal

/-- The try / catch / try / catch structure of parseErrorResponse made
explicit in the exception monad, to state that no decode error escapes. -/
def parseErrorResponseTry (r : Response) : Except JsError ErrorPayload :=
  match r.jsonBody.map ErrorPayload.jsonVal with
  | .ok v => .ok v
  | .error _ =>
    match r.textBody.map ErrorPayload.strVal with
    | .ok s => .ok s
    | .error _ => .ok .nullVal

/-- Whether an exception monad computation returned normally. -/
def isOkB : Except JsError ErrorPayload → Bool
  | .ok _ => true
  | .error _ => false

/-- The body of the try block of one attempt: issue the request, reject a
response failing the validator as a FetchError carrying the parsed error
payload, otherwise parse the response. -/
def attemptResult (validate : Nat → Bool) (rt : ResponseType) :
    TransportOutcome → Except JsError BodyVal
  | .throwErr e => .error e
  | .resp r =>
    if validate r.status then parseResponse r rt
    else .error (mkFetchError ("Request failed with status " ++ toString r.status)
                  r.status (parseErrorResponse r))

/-- What one call produced: the parsed body, the enriched terminal error,
or the final throw lastError fall-through of the loop (shown unreachable
below). -/
inductive FetchResult where
  | success (v : BodyVal)
  | failure (e : JsError)
  | lastErr (e : Option JsError)
deriving Repr, DecidableEq

/-- Observable trace of one run of the retry loop: the result, the number
of attempts issued, and the backoff delays slept, in order (the delay at
position i was slept after attempt i+1). -/
structure Outcome where
  result : FetchResult
  attempts : Nat
  delays : List Nat
deriving Repr, DecidableEq

/-- The parameters of the retry loop that stay fixed across attempts. -/
structure LoopCtx where
  t : Nat → TransportOutcome
  validate : Nat → Bool
  rt : ResponseType
  retries : Nat
  retryDelay : Nat
  url : String
  methodCtx : String

/-- The while loop of fetchEnhanced of fetch.js.  n is the value of the
attempt counter after the increment; fuel counts the remaining loop
iterations (retries + 1 at entry); the first argument threads lastError.
A retryable failure with attempts left sleeps retryDelay * 2 ^ (n - 1) and
continues; otherwise the error is enriched and thrown; exiting the loop
throws lastError. -/
def fetchGo (L : LoopCtx) : Option JsError → Nat → Nat → Outcome
  | last, n, 0 => { result := .lastErr last, attempts := n - 1, delays := [] }
  | _last, n, fuel + 1 =>
    match attemptResult L.validate L.rt (L.t n) with
    | .ok v => { result := .success v, attempts := n, delays := [] }
    | .error e =>
      if n ≤ L.retries ∧ isFatalError e = false then
        let rest := fetchGo L (some e) (n + 1) fuel
        { result := rest.result, attempts := rest.attempts,
          delays := L.retryDelay * 2 ^ (n - 1) :: rest.delays }
      else
        { result := .failure (enhanceError e L.url L.methodCtx n), attempts := n, delays := [] }

/-- The request options built before the loop: normalized method, cloned
headers, the signal slot, and the body policy (dropped for GET and HEAD
or a falsy body; structured objects serialized to JSON with the
Content-Type header defaulted; everything else passed through). -/
def buildOptions (cfg : FetchConfig) : RequestOptions :=
  let methodUp := jsToUpper cfg.method
  let sig := if cfg.signal then SignalKind.external
             else if cfg.timeout ≠ 0 then SignalKind.timed cfg.timeout
             else SignalKind.noSignal
  let base : RequestOptions :=
    { method := methodUp, headers := cfg.headers, body := none, signal := sig }
  match cfg.body with
  | none => base
  | some b =>
    if bodyTruthy b ∧ ¬(methodUp = "GET" ∨ methodUp = "HEAD") then
      match b with
      | .obj v =>
        let ct := match getHeader cfg.headers "Content-Type" with
          | some old => if old = "" then "application/json" else old
          | none => "application/json"
        { base with headers := setHeader cfg.headers "Content-Type" ct,
                    body := some (.jsonOf v) }
      | _ => { base with body := some (.raw b) }
    else base

/-- Everything observable about one call of fetchEnhanced: the resolved
URL and options the transport was given, and the trace of the loop. -/
structure FetchOutcome where
  requestUrl : String
  options : RequestOptions
  result : FetchResult
  attempts : Nat
  delays : List Nat
deriving Repr, DecidableEq

/-- fetchEnhanced of src/js/utils/fetch/fetch.js as a function of the url,
the configuration and the transport oracle.  The enrichment context passes
the method parameter as written in the source (not options.method). -/
def fetchEnhanced (url : String) (cfg : FetchConfig) (t : Nat → TransportOutcome) :
    FetchOutcome :=
  let finalUrl := buildFinalUrl url cfg.query
  let opts := buildOptions cfg
  let go := fetchGo
    { t := t, validate := cfg.validateStatus, rt := cfg.responseType,
      retries := cfg.retries, retryDelay := cfg.retryDelay,
      url := finalUrl, methodCtx := cfg.method }
    none 1 (cfg.retries + 1)
  { requestUrl := finalUrl, options := opts, result := go.result,
    attempts := go.attempts, delays := go.delays }

/- ===== the fetchEnhanced listing embedded in src/unnamed/part_000 =====

The listing is character-identical to fetch.js except in three spots:
* parseResponse binds the content type in its own intermediate constant
  (same value);
* parseErrorResponse falls back to a descriptive string instead of null;
* the enhanceError context receives options.method instead of method, and
  the Content-Type default is written as an if-statement instead of the
  logical-or assignment (the resulting headers object is the same).
isFatalError, enhanceError, FetchError, wait and the URL, options and body
construction are identical, so those embeddings are shared. -/

namespace Doc

/-- parseResponse of part_000: the content type is read first, then the
effective type is chosen, then the same decoder chain runs. -/
def parseResponse (r : Response) (responseType : ResponseType) : Except JsError BodyVal :=
  let contentType := r.contentType.getD ""
  let type := if responseType = .auto then contentType else responseType.str
  if jsIncludes type "json" || responseType = .json then r.jsonBody.map .json
  else if jsIncludes type "text" || responseType = .text then r.textBody.map .text
  else if jsIncludes type "octet-stream" || responseType = .blob then r.blobBody.map .blob
  else r.bufferBody.map .buffer

/-- parseErrorResponse of part_000: try JSON, then text, then a
descriptive placeholder string naming the status. -/
def parseErrorResponse (r : Response) : ErrorPayload :=
  match r.jsonBody with
  | .ok v => .jsonVal v
  | .error _ =>
    match r.textBody with
    | .ok s => .strVal s
    | .error _ => .strVal ("Failed to parse error response (status: " ++ toString r.status ++ ")")

/-- The try block of one attempt of the part_000 listing. -/
def attemptResult (validate : Nat → Bool) (rt : ResponseType) :
    TransportOutcome → Except JsError BodyVal
  | .throwErr e => .error e
  | .resp r =>
    if validate r.status then parseResponse r rt
    else .error (mkFetchError ("Request failed with status " ++ toString r.status)
                  r.status (parseErrorResponse r))

/-- The while loop of the part_000 listing. -/
def fetchGo (L : LoopCtx) : Option JsError → Nat → Nat → Outcome
  | last, n, 0 => { result := .lastErr last, attempts := n - 1, delays := [] }
  | _last, n, fuel + 1 =>
    match attemptResult L.validate L.rt (L.t n) with
    | .ok v => { result := .success v, attempts := n, delays := [] }
    | .error e =>
      if n ≤ L.retries ∧ isFatalError e = false then
        let rest := fetchGo L (some e) (n + 1) fuel
        { result := rest.result, attempts := rest.attempts,
          delays := L.retryDelay * 2 ^ (n - 1) :: rest.delays }
      else
        { result := .failure (enhanceError e L.url L.methodCtx n), attempts := n, delays := [] }

/-- fetchEnhanced of part_000: identical to the fetch.js variant except
that the enrichment context receives options.method (the normalized
method) and the loop uses the part_000 helpers. -/
def fetchEnhanced (url : String) (cfg : FetchConfig) (t : Nat → TransportOutcome) :
    FetchOutcome :=
  let finalUrl := buildFinalUrl url cfg.query
  let opts := buildOptions cfg
  let go := fetchGo
    { t := t, validate := cfg.validateStatus, rt := cfg.responseType,
      retries := cfg.retries, retryDelay := cfg.retryDelay,
      url := finalUrl, methodCtx := opts.method }
    none 1 (cfg.retries + 1)
  { requestUrl := finalUrl, options := opts, result := go.result,
    attempts := go.attempts, delays := go.delays }

end Doc

/-- A transport outcome on which the catch block retries: the attempt
fails and the failure is not fatal. -/
def retryFailure (validate : Nat → Bool) (rt : ResponseType) (o : TransportOutcome) : Prop :=
  ∃ e, attemptResult validate rt o = .error e ∧ isFatalError e = false

/-- Erasure of the two error fields on which the fetch.js and part_000
variants differ: the enriched method string and the attached data
payload. -/
def scrubErr (e : JsError) : JsError :=
  { e with method := none, data := none }

/-- Erasure of the method and data fields of a surfaced result. -/
def scrubRes : FetchResult → FetchResult
  | .success v => .success v
  | .failure e => .failure (scrubErr e)
  | .lastErr le => .lastErr (le.map scrubErr)

/-- A transport outcome whose response body (when one is produced) is
decodable by at least one of the two error-payload decoders, so the two
parseErrorResponse variants agree on it. -/
def decodableOutcome : TransportOutcome → Prop
  | .throwErr _ => True
  | .resp r => (∃ v, r.jsonBody = .ok v) ∨ (∃ s, r.textBody = .ok s)

/- ===== General lemmas about the retry loop ===== -/

theorem fetchGo_ok (L : LoopCtx) (last : Option JsError) (n fuel : Nat) (v : BodyVal)
    (h : attemptResult L.validate L.rt (L.t n) = .ok v) :
    fetchGo L last n (fuel + 1) = { result := .success v, attempts := n, delays := [] } := by
  simp only [fetchGo]
  rw [h]

theorem fetchGo_retry (L : LoopCtx) (last : Option JsError) (n fuel : Nat) (e : JsError)
    (h : attemptResult L.validate L.rt (L.t n) = .error e)
    (hn : n ≤ L.retries) (hf : isFatalError e = false) :
    fetchGo L last n (fuel + 1) =
      { result := (fetchGo L (some e) (n + 1) fuel).result,
        attempts := (fetchGo L (some e) (n + 1) fuel).attempts,
        delays := L.retryDelay * 2 ^ (n - 1) :: (fetchGo L (some e) (n + 1) fuel).delays } := by
  simp only [fetchGo]
  rw [h]
  simp [hn, hf]

theorem fetchGo_stop (L : LoopCtx) (last : Option JsError) (n fuel : Nat) (e : JsError)
    (h : attemptResult L.validate L.rt (L.t n) = .error e)
    (hc : ¬(n ≤ L.retries ∧ isFatalError e = false)) :
    fetchGo L last n (fuel + 1) =
      { result := .failure (enhanceError e L.url L.methodCtx n), attempts := n, delays := [] } := by
  simp only [fetchGo]
  rw [h]
  simp only [if_neg hc]

theorem fetchGo_last_irrel (L : LoopCtx) (last last2 : Option JsError) (n fuel : Nat) :
    fetchGo L last n (fuel + 1) = fetchGo L last2 n (fuel + 1) := by
  simp only [fetchGo]

theorem fetchGo_exhaust (L : LoopCtx)
    (hall : ∀ m, 1 ≤ m → retryFailure L.validate L.rt (L.t m)) :
    ∀ fuel n last, 1 ≤ n → n + fuel = L.retries + 2 → n ≤ L.retries + 1 →
    (fetchGo L last n fuel).attempts = L.retries + 1 ∧
    ∃ e, (fetchGo L last n fuel).result =
           .failure (enhanceError e L.url L.methodCtx (L.retries + 1)) := by
  intro fuel
  induction fuel with
  | zero => intro n last h1 h2 h3; omega
  | succ fuel ih =>
    intro n last h1 h2 h3
    obtain ⟨e, he, hf⟩ := hall n h1
    by_cases hn : n ≤ L.retries
    · rw [fetchGo_retry L last n fuel e he hn hf]
      exact ih (n + 1) (some e) (by omega) (by omega) (by omega)
    · have hstop := fetchGo_stop L last n fuel e he (fun hc => hn hc.1)
      rw [hstop]
      have hn1 : n = L.retries + 1 := by omega
      subst hn1
      exact ⟨rfl, e, rfl⟩

theorem fetchGo_delays (L : LoopCtx) :
    ∀ fuel n last i d, 1 ≤ n →
    ((fetchGo L last n fuel).delays)[i]? = some d → d = L.retryDelay * 2 ^ (n - 1 + i) := by
  intro fuel
  induction fuel with
  | zero => intro n last i d _ hd; simp [fetchGo] at hd
  | succ fuel ih =>
    intro n last i d h1 hd
    rcases he : attemptResult L.validate L.rt (L.t n) with e | v
    · by_cases hc : n ≤ L.retries ∧ isFatalError e = false
      · rw [fetchGo_retry L last n fuel e he hc.1 hc.2] at hd
        match i with
        | 0 =>
          simp only [List.getElem?_cons_zero, Option.some.injEq] at hd
          rw [Nat.add_zero, ← hd]
        | i + 1 =>
          simp only [List.getElem?_cons_succ] at hd
          have hrec := ih (n + 1) (some e) i d (by omega) hd
          have harith : n + 1 - 1 + i = n - 1 + (i + 1) := by omega
          rw [hrec, harith]
      · rw [fetchGo_stop L last n fuel e he hc] at hd
        simp at hd
    · rw [fetchGo_ok L last n fuel v he] at hd
      simp at hd

theorem fetchGo_surfaced (L : LoopCtx) :
    ∀ fuel n last, 1 ≤ n → n + fuel = L.retries + 2 → n ≤ L.retries + 1 →
    (∀ e, (fetchGo L last n fuel).result = .failure e →
        e.url = some L.url ∧ e.method = some L.methodCtx ∧
        e.attempt = some ((fetchGo L last n fuel).attempts)) ∧
    (∀ le, (fetchGo L last n fuel).result ≠ .lastErr le) := by
  intro fuel
  induction fuel with
  | zero => intro n last h1 h2 h3; omega
  | succ fuel ih =>
    intro n last h1 h2 h3
    rcases he : attemptResult L.validate L.rt (L.t n) with e | v
    case ok =>
      rw [fetchGo_ok L last n fuel v he]
      exact ⟨fun e hfail => by simp at hfail, fun le hlast => by simp at hlast⟩
    case error =>
      by_cases hc : n ≤ L.retries ∧ isFatalError e = false
      · rw [fetchGo_retry L last n fuel e he hc.1 hc.2]
        exact ih (n + 1) (some e) (by omega) (by omega) (by omega)
      · rw [fetchGo_stop L last n fuel e he hc]
        refine ⟨fun e2 hfail => ?_, fun le hlast => by simp at hlast⟩
        simp only [FetchResult.failure.injEq] at hfail
        subst hfail
        exact ⟨rfl, rfl, rfl⟩

theorem fetchGo_skip (L : LoopCtx) :
    ∀ k n last last2, 1 ≤ n → n + k ≤ L.retries + 1 →
    (∀ j, n ≤ j → j < n + k → retryFailure L.validate L.rt (L.t j)) →
    (fetchGo L last n (L.retries + 2 - n)).result =
      (fetchGo L last2 (n + k) (L.retries + 2 - (n + k))).result ∧
    (fetchGo L last n (L.retries + 2 - n)).attempts =
      (fetchGo L last2 (n + k) (L.retries + 2 - (n + k))).attempts := by
  intro k
  induction k with
  | zero =>
    intro n last last2 h1 h2 _
    have hfuel : L.retries + 2 - n = (L.retries + 1 - n) + 1 := by omega
    constructor <;>
    · simp only [Nat.add_zero, hfuel]
      rw [fetchGo_last_irrel L last last2 n (L.retries + 1 - n)]
  | succ k ih =>
    intro n last last2 h1 h2 hall
    obtain ⟨e, he, hf⟩ := hall n (Nat.le_refl n) (by omega)
    have hn : n ≤ L.retries := by omega
    have hfuel : L.retries + 2 - n = (L.retries + 2 - (n + 1)) + 1 := by omega
    rw [hfuel, fetchGo_retry L last n (L.retries + 2 - (n + 1)) e he hn hf]
    have := ih (n + 1) (some e) last2 (by omega) (by omega)
      (fun j hj1 hj2 => hall j (by omega) (by omega))
    have harith : n + 1 + k = n + (k + 1) := by omega
    rw [harith] at this
    exact this

/- ===== Claims about the retry executor ===== -/

/-- C1: for every configuration with retries = R and every transport that
fails each attempt with a retryable (non-fatal) error, fetchEnhanced
performs exactly R + 1 attempts before reporting failure, and the failure
carries attempt number R + 1 (attempts are numbered from 1). -/
theorem claim1_retry_budget (url : String) (cfg : FetchConfig) (t : Nat → TransportOutcome)
    (hall : ∀ m, 1 ≤ m → retryFailure cfg.validateStatus cfg.responseType (t m)) :
    (fetchEnhanced url cfg t).attempts = cfg.retries + 1 ∧
    ∃ e, (fetchEnhanced url cfg t).result = .failure e ∧
      e.attempt = some (cfg.retries + 1) := by
  have h := fetchGo_exhaust
    (L := { t := t, validate := cfg.validateStatus, rt := cfg.responseType,
            retries := cfg.retries, retryDelay := cfg.retryDelay,
            url := buildFinalUrl url cfg.query, methodCtx := cfg.method })
    hall (cfg.retries + 1) 1 none (by omega)
    (by show 1 + (cfg.retries + 1) = cfg.retries + 2; omega)
    (by show (1 : Nat) ≤ cfg.retries + 1; omega)
  refine ⟨h.1, ?_⟩
  obtain ⟨e, he⟩ := h.2
  exact ⟨enhanceError e (buildFinalUrl url cfg.query) cfg.method (cfg.retries + 1), he, rfl⟩

/-- Witness for C1: retries = 2, a transport that always rejects with a
retryable network error, three attempts made. -/
theorem claim1_retry_budget_witness :
    (fetchEnhanced "https://api.example.com/items" { retries := 2 }
        (fun _ => .throwErr { name := "NetworkError" })).attempts = 3 ∧
    ∃ e, (fetchEnhanced "https://api.example.com/items" { retries := 2 }
        (fun _ => .throwErr { name := "NetworkError" })).result = .failure e ∧
      e.attempt = some 3 :=
  claim1_retry_budget "https://api.example.com/items" { retries := 2 }
    (fun _ => .throwErr { name := "NetworkError" })
    (fun _ _ => ⟨{ name := "NetworkError" }, rfl, rfl⟩)

/-- C2: each delay recorded in the backoff trace equals
retryDelay * 2 ^ (N - 1), where the entry at position N - 1 is the delay
slept after the failure of attempt N and before attempt N + 1. -/
theorem claim2_backoff (url : String) (cfg : FetchConfig) (t : Nat → TransportOutcome)
    (N d : Nat)
    (hd : ((fetchEnhanced url cfg t).delays)[N - 1]? = some d) :
    d = cfg.retryDelay * 2 ^ (N - 1) := by
  have h := fetchGo_delays
    (L := { t := t, validate := cfg.validateStatus, rt := cfg.responseType,
            retries := cfg.retries, retryDelay := cfg.retryDelay,
            url := buildFinalUrl url cfg.query, methodCtx := cfg.method })
    (cfg.retries + 1) 1 none (N - 1) d (by omega) hd
  simpa using h

/-- Witness for C2: retryDelay = 100 and two retryable failures give the
trace position 1 (the delay before attempt 3) the value 200 = 100 * 2. -/
theorem claim2_backoff_witness :
    ((fetchEnhanced "https://api.example.com/items" { retries := 2, retryDelay := 100 }
        (fun _ => .throwErr { name := "NetworkError" })).delays)[1]? = some 200 ∧
    (200 : Nat) = 100 * 2 ^ (2 - 1) :=
  ⟨rfl,
   claim2_backoff "https://api.example.com/items" { retries := 2, retryDelay := 100 }
     (fun _ => .throwErr { name := "NetworkError" }) 2 200 rfl⟩

/-- C3: a status rejection is classified fatal exactly when its status
lies in [400, 500); a transport that always answers status 500 (failing
the validator) is retried through the whole budget, while a status-404
answer is surfaced immediately on attempt 1 with the budget unused. -/
theorem claim3_status_fatality :
    (∀ (msg : String) (s : Nat) (dta : ErrorPayload),
        isFatalError (mkFetchError msg s dta) = true ↔ (400 ≤ s ∧ s < 500)) ∧
    (∀ (url : String) (cfg : FetchConfig) (t : Nat → TransportOutcome),
        (∀ m, 1 ≤ m → ∃ r, t m = .resp r ∧ r.status = 500) →
        cfg.validateStatus 500 = false →
        (fetchEnhanced url cfg t).attempts = cfg.retries + 1) ∧
    (∀ (url : String) (cfg : FetchConfig) (t : Nat → TransportOutcome) (r : Response),
        t 1 = .resp r → r.status = 404 → cfg.validateStatus 404 = false →
        (fetchEnhanced url cfg t).attempts = 1 ∧
        ∃ e, (fetchEnhanced url cfg t).result = .failure e ∧
          e.status = some 404 ∧ e.attempt = some 1) := by
  refine ⟨?_, ?_, ?_⟩
  · intro msg s dta
    simp only [isFatalError, mkFetchError]
    rw [show (("FetchError" : String) == "AbortError") = false from rfl]
    simp only [Bool.false_or, Bool.and_eq_true, Bool.not_eq_true', beq_eq_false_iff_ne,
      decide_eq_true_eq, ne_eq]
    constructor
    · rintro ⟨⟨_, h1⟩, h2⟩; exact ⟨h1, h2⟩
    · rintro ⟨h1, h2⟩; exact ⟨⟨by omega, h1⟩, h2⟩
  · intro url cfg t h500 hval
    have hall : ∀ m, 1 ≤ m → retryFailure cfg.validateStatus cfg.responseType (t m) := by
      intro m hm
      obtain ⟨r, hr, hs⟩ := h500 m hm
      have hv : cfg.validateStatus r.status = false := by rw [hs]; exact hval
      refine ⟨mkFetchError ("Request failed with status " ++ toString r.status)
        r.status (parseErrorResponse r), ?_, ?_⟩
      · rw [hr]
        simp only [attemptResult]
        rw [if_neg (by simp [hv])]
      · simp [isFatalError, mkFetchError, hs]
    exact (fetchGo_exhaust
      (L := { t := t, validate := cfg.validateStatus, rt := cfg.responseType,
              retries := cfg.retries, retryDelay := cfg.retryDelay,
              url := buildFinalUrl url cfg.query, methodCtx := cfg.method })
      hall (cfg.retries + 1) 1 none (by omega)
      (by show 1 + (cfg.retries + 1) = cfg.retries + 2; omega)
      (by show (1 : Nat) ≤ cfg.retries + 1; omega)).1
  · intro url cfg t r hr hs hval
    have hv : cfg.validateStatus r.status = false := by rw [hs]; exact hval
    have he : attemptResult cfg.validateStatus cfg.responseType (t 1) =
        .error (mkFetchError ("Request failed with status " ++ toString r.status)
          r.status (parseErrorResponse r)) := by
      rw [hr]
      simp only [attemptResult]
      rw [if_neg (by simp [hv])]
    have hfatal : isFatalError (mkFetchError ("Request failed with status " ++ toString r.status)
        r.status (parseErrorResponse r)) = true := by
      simp [isFatalError, mkFetchError, hs]
    have hstop := fetchGo_stop
      (L := { t := t, validate := cfg.validateStatus, rt := cfg.responseType,
              retries := cfg.retries, retryDelay := cfg.retryDelay,
              url := buildFinalUrl url cfg.query, methodCtx := cfg.method })
      none 1 cfg.retries _ he (by rw [hfatal]; rintro ⟨_, h⟩; cases h)
    constructor
    · show (fetchGo _ none 1 (cfg.retries + 1)).attempts = 1
      rw [hstop]
    · refine ⟨enhanceError (mkFetchError ("Request failed with status " ++ toString r.status)
        r.status (parseErrorResponse r)) (buildFinalUrl url cfg.query) cfg.method 1, ?_, ?_, rfl⟩
      · show (fetchGo _ none 1 (cfg.retries + 1)).result = _
        rw [hstop]
      · simp [enhanceError, mkFetchError, hs]

/-- Witness for C3: the 404 rejection is fatal by classification, a
status-500 transport is attempted 3 times at retries = 2, and a
status-404 transport is attempted once. -/
theorem claim3_status_fatality_witness :
    (isFatalError (mkFetchError "Request failed with status 404" 404 .nullVal) = true
      ↔ (400 ≤ 404 ∧ 404 < 500)) ∧
    (fetchEnhanced "https://api.example.com/s" { retries := 2 }
        (fun _ => .resp { status := 500 })).attempts = 3 ∧
    (fetchEnhanced "https://api.example.com/s" { retries := 2 }
        (fun _ => .resp { status := 404 })).attempts = 1 :=
  ⟨claim3_status_fatality.1 "Request failed with status 404" 404 .nullVal,
   claim3_status_fatality.2.1 "https://api.example.com/s" { retries := 2 }
     (fun _ => .resp { status := 500 }) (fun _ _ => ⟨{ status := 500 }, rfl, rfl⟩) rfl,
   (claim3_status_fatality.2.2 "https://api.example.com/s" { retries := 2 }
     (fun _ => .resp { status := 404 }) { status := 404 } rfl rfl rfl).1⟩

/-- Counterexample for C4 as stated: with method given as post, the
surfaced error of fetch.js carries method post, not the normalized POST
(the enrichment context passes the raw method parameter). -/
theorem claim4_counterexample :
    (fetchEnhanced "https://api.example.com/u" { method := "post", retries := 0 }
        (fun _ => .throwErr { name := "NetworkError" })).result =
      .failure { name := "NetworkError", url := some "https://api.example.com/u",
                 method := some "post", attempt := some 1 } ∧
    ("post" : String) ≠ jsToUpper "post" := by
  constructor
  · rfl
  · decide

/-- C4 (amended): every error surfaced by fetchEnhanced carries the final
resolved URL, the method string as supplied by the caller (fetch.js does
not normalize it in the enrichment context), and the attempt number at
which termination occurred; the trailing throw lastError of the loop is
never the surfaced result. -/
theorem claim4_error_enrichment (url : String) (cfg : FetchConfig) (t : Nat → TransportOutcome) :
    (∀ e, (fetchEnhanced url cfg t).result = .failure e →
        e.url = some ((fetchEnhanced url cfg t).requestUrl) ∧
        e.method = some cfg.method ∧
        e.attempt = some ((fetchEnhanced url cfg t).attempts)) ∧
    (∀ le, (fetchEnhanced url cfg t).result ≠ .lastErr le) :=
  fetchGo_surfaced
    (L := { t := t, validate := cfg.validateStatus, rt := cfg.responseType,
            retries := cfg.retries, retryDelay := cfg.retryDelay,
            url := buildFinalUrl url cfg.query, methodCtx := cfg.method })
    (cfg.retries + 1) 1 none (by omega)
    (by show 1 + (cfg.retries + 1) = cfg.retries + 2; omega)
    (by show (1 : Nat) ≤ cfg.retries + 1; omega)

/-- Witness for C4: a concrete failing call whose surfaced error carries
the resolved URL with its query string, the caller method and the attempt
count. -/
theorem claim4_error_enrichment_witness :
    (fetchEnhanced "https://api.example.com/u"
        { method := "post", retries := 0, query := [("a", some "1")] }
        (fun _ => .throwErr { name := "NetworkError" })).result =
      .failure { name := "NetworkError", url := some "https://api.example.com/u?a=1",
                 method := some "post", attempt := some 1 } ∧
    (({ name := "NetworkError", url := some "https://api.example.com/u?a=1",
        method := some "post", attempt := some 1 } : JsError).url =
      some ((fetchEnhanced "https://api.example.com/u"
        { method := "post", retries := 0, query := [("a", some "1")] }
        (fun _ => .throwErr { name := "NetworkError" })).requestUrl) ∧
     ({ name := "NetworkError", url := some "https://api.example.com/u?a=1",
        method := some "post", attempt := some 1 } : JsError).method = some "post" ∧
     ({ name := "NetworkError", url := some "https://api.example.com/u?a=1",
        method := some "post", attempt := some 1 } : JsError).attempt =
      some ((fetchEnhanced "https://api.example.com/u"
        { method := "post", retries := 0, query := [("a", some "1")] }
        (fun _ => .throwErr { name := "NetworkError" })).attempts)) :=
  ⟨rfl,
   (claim4_error_enrichment "https://api.example.com/u"
      { method := "post", retries := 0, query := [("a", some "1")] }
      (fun _ => .throwErr { name := "NetworkError" })).1
     { name := "NetworkError", url := some "https://api.example.com/u?a=1",
       method := some "post", attempt := some 1 } rfl⟩

/-- C5: if every attempt before N fails retryably and attempt N
(N within the budget) rejects with an error of the cancellation kind
(name AbortError, raised by external cancel or timeout), the call stops
at attempt N regardless of the remaining budget and the surfaced error is
of the cancellation kind. -/
theorem claim5_cancellation (url : String) (cfg : FetchConfig) (t : Nat → TransportOutcome)
    (N : Nat) (e : JsError) (h1 : 1 ≤ N) (h2 : N ≤ cfg.retries + 1)
    (hpre : ∀ m, 1 ≤ m → m < N → retryFailure cfg.validateStatus cfg.responseType (t m))
    (habort : t N = .throwErr e) (hname : e.name = "AbortError") :
    (fetchEnhanced url cfg t).attempts = N ∧
    ∃ e2, (fetchEnhanced url cfg t).result = .failure e2 ∧ e2.name = "AbortError" := by
  have hfatal : isFatalError e = true := by
    simp [isFatalError, hname]
  have heN : attemptResult cfg.validateStatus cfg.responseType (t N) = .error e := by
    rw [habort]
    rfl
  have hskip := fetchGo_skip
    (L := { t := t, validate := cfg.validateStatus, rt := cfg.responseType,
            retries := cfg.retries, retryDelay := cfg.retryDelay,
            url := buildFinalUrl url cfg.query, methodCtx := cfg.method })
    (N - 1) 1 none none (by omega)
    (by show 1 + (N - 1) ≤ cfg.retries + 1; omega)
    (fun j hj1 hj2 => hpre j hj1 (by omega))
  have hN1 : 1 + (N - 1) = N := by omega
  rw [hN1] at hskip
  have hfuel : cfg.retries + 2 - N = (cfg.retries + 1 - N) + 1 := by omega
  have hstop := fetchGo_stop
    (L := { t := t, validate := cfg.validateStatus, rt := cfg.responseType,
            retries := cfg.retries, retryDelay := cfg.retryDelay,
            url := buildFinalUrl url cfg.query, methodCtx := cfg.method })
    none N (cfg.retries + 1 - N) e heN (by rw [hfatal]; rintro ⟨_, h⟩; cases h)
  rw [hfuel, hstop] at hskip
  have hone : cfg.retries + 2 - 1 = cfg.retries + 1 := by omega
  rw [hone] at hskip
  constructor
  · exact hskip.2
  · refine ⟨enhanceError e (buildFinalUrl url cfg.query) cfg.method N, hskip.1, ?_⟩
    simpa [enhanceError] using hname

/-- Witness for C5: retries = 3, attempt 1 fails retryably, attempt 2 is
aborted; the call stops after 2 attempts with an AbortError. -/
theorem claim5_cancellation_witness :
    (fetchEnhanced "https://api.example.com/dl" { retries := 3 }
        (fun n => if n = 2 then .throwErr { name := "AbortError" }
                  else .throwErr { name := "NetworkError" })).attempts = 2 ∧
    ∃ e2, (fetchEnhanced "https://api.example.com/dl" { retries := 3 }
        (fun n => if n = 2 then .throwErr { name := "AbortError" }
                  else .throwErr { name := "NetworkError" })).result = .failure e2 ∧
      e2.name = "AbortError" :=
  claim5_cancellation "https://api.example.com/dl" { retries := 3 }
    (fun n => if n = 2 then .throwErr { name := "AbortError" }
              else .throwErr { name := "NetworkError" })
    2 { name := "AbortError" } (by decide) (by decide)
    (fun m hm1 hm2 => by
      have hm : m = 1 := by omega
      subst hm
      exact ⟨{ name := "NetworkError" }, rfl, rfl⟩)
    rfl rfl

/- ===== Claims about body, decoding and error-payload handling ===== -/

theorem getHeader_setHeader_self (h : List (String × String)) (k v : String) :
    getHeader (setHeader h k v) k = some v := by
  induction h with
  | nil => simp [setHeader, getHeader]
  | cons p rest ih =>
    by_cases hp : p.1 = k
    · simp [setHeader, getHeader, hp]
    · simp [setHeader, getHeader, hp, ih]

/-- C6: a truthy structured object body with normalized method POST and no
caller-set Content-Type is serialized to JSON and the sent headers carry
Content-Type application/json; a nonempty caller-set Content-Type header
is kept as is; with normalized method GET or HEAD the body is dropped.
The options of the call are those built by buildOptions. -/
theorem claim6_body_policy (url : String) (cfg : FetchConfig) (t : Nat → TransportOutcome)
    (v : String) :
    ((fetchEnhanced url cfg t).options = buildOptions cfg) ∧
    (cfg.body = some (.obj v) → jsToUpper cfg.method = "POST" →
      getHeader cfg.headers "Content-Type" = none →
      (buildOptions cfg).body = some (.jsonOf v) ∧
      getHeader (buildOptions cfg).headers "Content-Type" = some "application/json") ∧
    (∀ ct, getHeader cfg.headers "Content-Type" = some ct → ct ≠ "" →
      getHeader (buildOptions cfg).headers "Content-Type" = some ct) ∧
    (cfg.body = some (.obj v) →
      (jsToUpper cfg.method = "GET" ∨ jsToUpper cfg.method = "HEAD") →
      (buildOptions cfg).body = none) := by
  refine ⟨rfl, ?_, ?_, ?_⟩
  · intro hbody hpost hct
    have hnot : ¬(jsToUpper cfg.method = "GET" ∨ jsToUpper cfg.method = "HEAD") := by
      rw [hpost]
      decide
    simp only [buildOptions, hbody]
    rw [if_pos ⟨rfl, hnot⟩]
    constructor
    · rfl
    · show getHeader (setHeader cfg.headers "Content-Type" _) "Content-Type" = _
      rw [hct]
      exact getHeader_setHeader_self cfg.headers "Content-Type" "application/json"
  · intro ct hct hne
    rcases hb : cfg.body with _ | b
    · simpa [buildOptions, hb] using hct
    · simp only [buildOptions, hb]
      by_cases hcond : bodyTruthy b = true ∧
          ¬(jsToUpper cfg.method = "GET" ∨ jsToUpper cfg.method = "HEAD")
      · rw [if_pos hcond]
        cases b with
        | obj v2 =>
          simp only [hct]
          rw [if_neg hne]
          exact getHeader_setHeader_self cfg.headers "Content-Type" ct
        | formData tag => simpa using hct
        | str s => simpa using hct
      · rw [if_neg hcond]
        simpa using hct
  · intro hbody hgh
    simp only [buildOptions, hbody]
    rw [if_neg (by rintro ⟨_, hno⟩; exact hno hgh)]

/-- Witness for C6: a structured body with method post becomes JSON with
the defaulted header; with method get the body is dropped. -/
theorem claim6_body_policy_witness :
    ((buildOptions { method := "post", body := some (.obj "data") }).body =
        some (.jsonOf "data") ∧
      getHeader (buildOptions { method := "post", body := some (.obj "data") }).headers
        "Content-Type" = some "application/json") ∧
    (buildOptions { method := "get", body := some (.obj "data") }).body = none :=
  ⟨(claim6_body_policy "https://api.example.com/w"
      { method := "post", body := some (.obj "data") }
      (fun _ => .throwErr { name := "NetworkError" }) "data").2.1 rfl rfl rfl,
   (claim6_body_policy "https://api.example.com/w"
      { method := "get", body := some (.obj "data") }
      (fun _ => .throwErr { name := "NetworkError" }) "data").2.2.2 rfl (Or.inl rfl)⟩

/-- C7: with responseType auto the decoder is chosen from the declared
content type (empty string when absent), first match wins: json, then
text, then octet-stream (blob), else the raw byte buffer; an explicit
blob request also decodes as a blob; application/json decodes as JSON and
text/plain as text. -/
theorem claim7_auto_decoding (r : Response) :
    (jsIncludes (r.contentType.getD "") "json" = true →
        parseResponse r .auto = r.jsonBody.map .json) ∧
    (jsIncludes (r.contentType.getD "") "json" = false →
     jsIncludes (r.contentType.getD "") "text" = true →
        parseResponse r .auto = r.textBody.map .text) ∧
    (jsIncludes (r.contentType.getD "") "json" = false →
     jsIncludes (r.contentType.getD "") "text" = false →
     jsIncludes (r.contentType.getD "") "octet-stream" = true →
        parseResponse r .auto = r.blobBody.map .blob) ∧
    (jsIncludes (r.contentType.getD "") "json" = false →
     jsIncludes (r.contentType.getD "") "text" = false →
     jsIncludes (r.contentType.getD "") "octet-stream" = false →
        parseResponse r .auto = r.bufferBody.map .buffer) ∧
    (parseResponse r .blob = r.blobBody.map .blob) ∧
    (r.contentType = some "application/json" → parseResponse r .auto = r.jsonBody.map .json) ∧
    (r.contentType = some "text/plain" → parseResponse r .auto = r.textBody.map .text) := by
  refine ⟨?_, ?_, ?_, ?_, ?_, ?_, ?_⟩
  · intro h1
    simp [parseResponse, h1]
  · intro h1 h2
    simp [parseResponse, h1, h2]
  · intro h1 h2 h3
    simp [parseResponse, h1, h2, h3]
  · intro h1 h2 h3
    simp [parseResponse, h1, h2, h3]
  · have e1 : jsIncludes (ResponseType.str .blob) "json" = false := by decide
    have e2 : jsIncludes (ResponseType.str .blob) "text" = false := by decide
    simp [parseResponse, e1, e2]
  · intro hct
    have hj : jsIncludes "application/json" "json" = true := by decide
    simp [parseResponse, hct, hj]
  · intro hct
    have h1 : jsIncludes "text/plain" "json" = false := by decide
    have h2 : jsIncludes "text/plain" "text" = true := by decide
    simp [parseResponse, hct, h1, h2]

/-- Witness for C7: a declared application/json body decodes as JSON and a
declared text/plain body decodes as text. -/
theorem claim7_auto_decoding_witness :
    parseResponse
        { status := 200, contentType := some "application/json", jsonBody := .ok "J" } .auto =
      Except.ok (BodyVal.json "J") ∧
    parseResponse
        { status := 200, contentType := some "text/plain", textBody := .ok "T" } .auto =
      Except.ok (BodyVal.text "T") :=
  ⟨(claim7_auto_decoding
      { status := 200, contentType := some "application/json", jsonBody := .ok "J" }
      ).2.2.2.2.2.1 rfl,
   (claim7_auto_decoding
      { status := 200, contentType := some "text/plain", textBody := .ok "T" }
      ).2.2.2.2.2.2 rfl⟩

/-- C8: the failure-path classifier never propagates an exception: its
try / catch chain always returns normally, it agrees with the total
embedding, and when both the JSON and the text decodes fail it returns
the placeholder (null in fetch.js, a descriptive string in part_000). -/
theorem claim8_error_parse_total (r : Response) :
    isOkB (parseErrorResponseTry r) = true ∧
    parseErrorResponseTry r = .ok (parseErrorResponse r) ∧
    ((∃ e1, r.jsonBody = .error e1) → (∃ e2, r.textBody = .error e2) →
      parseErrorResponse r = .nullVal ∧
      Doc.parseErrorResponse r =
        .strVal ("Failed to parse error response (status: " ++ toString r.status ++ ")")) := by
  refine ⟨?_, ?_, ?_⟩
  · rcases hj : r.jsonBody with e1 | v1
    · rcases ht : r.textBody with e2 | v2 <;>
        simp [parseErrorResponseTry, isOkB, hj, ht, Except.map]
    · simp [parseErrorResponseTry, isOkB, hj, Except.map]
  · rcases hj : r.jsonBody with e1 | v1
    · rcases ht : r.textBody with e2 | v2 <;>
        simp [parseErrorResponseTry, parseErrorResponse, hj, ht, Except.map]
    · simp [parseErrorResponseTry, parseErrorResponse, hj, Except.map]
  · rintro ⟨e1, h1⟩ ⟨e2, h2⟩
    constructor <;> simp [parseErrorResponse, Doc.parseErrorResponse, h1, h2]

/-- Witness for C8: a response whose body decodes neither as JSON nor as
text (both readers reject) yields the null payload in fetch.js and the
descriptive string in part_000, with no exception escaping. -/
theorem claim8_error_parse_total_witness :
    isOkB (parseErrorResponseTry { status := 502 }) = true ∧
    parseErrorResponse { status := 502 } = .nullVal ∧
    Doc.parseErrorResponse { status := 502 } =
      .strVal "Failed to parse error response (status: 502)" :=
  ⟨(claim8_error_parse_total { status := 502 }).1,
   ((claim8_error_parse_total { status := 502 }).2.2
     ⟨{ name := "SyntaxError" }, rfl⟩ ⟨{ name := "TypeError", isTypeError := true }, rfl⟩).1,
   ((claim8_error_parse_total { status := 502 }).2.2
     ⟨{ name := "SyntaxError" }, rfl⟩ ⟨{ name := "TypeError", isTypeError := true }, rfl⟩).2⟩

/- ===== Claims about query construction ===== -/

theorem hexDigit_sep_free (n : Nat) : hexDigit n ≠ '&' ∧ hexDigit n ≠ '=' := by
  unfold hexDigit
  constructor <;> (split <;> decide)

theorem encodeChar_sep_free (c : Char) : ∀ x ∈ encodeChar c, x ≠ '&' ∧ x ≠ '=' := by
  intro x hx
  unfold encodeChar at hx
  split at hx
  · rename_i hs
    simp only [List.mem_singleton] at hx
    subst hx
    constructor <;> rintro rfl <;> exact absurd hs (by decide)
  · split at hx
    · simp only [List.mem_singleton] at hx
      subst hx
      constructor <;> decide
    · simp only [List.mem_flatMap] at hx
      obtain ⟨b, _, hxb⟩ := hx
      simp only [encByte, List.mem_cons, List.mem_singleton] at hxb
      rcases hxb with rfl | rfl | rfl | hxb
      · constructor <;> decide
      · exact hexDigit_sep_free _
      · exact hexDigit_sep_free _
      · cases hxb

theorem encodeChars_sep_free (l : List Char) : ∀ x ∈ encodeChars l, x ≠ '&' ∧ x ≠ '=' := by
  intro x hx
  unfold encodeChars at hx
  simp only [List.mem_flatMap] at hx
  obtain ⟨c, _, hxc⟩ := hx
  exact encodeChar_sep_free c x hxc

theorem splitChar_nosep (sep : Char) (l : List Char) (h : ∀ c ∈ l, c ≠ sep) :
    splitChar sep l = [l] := by
  induction l with
  | nil => rfl
  | cons c cs ih =>
    have hc : c ≠ sep := h c (List.mem_cons_self c cs)
    have hrest := ih (fun x hx => h x (List.mem_cons_of_mem c hx))
    simp only [splitChar]
    rw [if_neg hc, hrest]

theorem splitChar_append (sep : Char) (p rest : List Char) (h : ∀ c ∈ p, c ≠ sep) :
    splitChar sep (p ++ sep :: rest) = p :: splitChar sep rest := by
  induction p with
  | nil =>
    show splitChar sep (sep :: rest) = [] :: splitChar sep rest
    simp [splitChar]
  | cons c cs ih =>
    have hc : c ≠ sep := h c (List.mem_cons_self c cs)
    have hrest := ih (fun x hx => h x (List.mem_cons_of_mem c hx))
    show splitChar sep (c :: (cs ++ sep :: rest)) = (c :: cs) :: splitChar sep rest
    simp only [splitChar, if_neg hc, hrest]

theorem splitChar_joinPieces (sep : Char) (pieces : List (List Char))
    (hne : pieces ≠ []) (h : ∀ p ∈ pieces, ∀ c ∈ p, c ≠ sep) :
    splitChar sep (joinPieces sep pieces) = pieces := by
  induction pieces with
  | nil => cases hne rfl
  | cons p ps ih =>
    cases ps with
    | nil =>
      simp only [joinPieces]
      exact splitChar_nosep sep p (h p (by simp))
    | cons q qs =>
      simp only [joinPieces]
      rw [splitChar_append sep p (joinPieces sep (q :: qs)) (h p (by simp))]
      rw [ih (by simp) (fun r hr => h r (List.mem_cons_of_mem p hr))]

theorem encPairChars_amp_free (kv : String × String) : ∀ c ∈ encPairChars kv, c ≠ '&' := by
  intro c hc
  unfold encPairChars at hc
  rcases List.mem_append.1 hc with hck | hcv
  · exact (encodeChars_sep_free kv.1.data c hck).1
  · rcases List.mem_cons.1 hcv with rfl | hcv2
    · decide
    · exact (encodeChars_sep_free kv.2.data c hcv2).1

/-- C9: a query entry with an undefined value is omitted from the final
URL; the serialized query string splits at ampersands into exactly the
encoded key=value pieces of the defined entries, and each piece splits at
the equals sign into the percent-encoded key and value (so reserved
characters inside a value cannot break the query structure); the URL of
the call is the base locator followed by this query string. -/
theorem claim9_query_handling (q1 q2 : List (String × Option String)) (k : String)
    (q : List (String × Option String)) (kk vv : String)
    (url : String) (cfg : FetchConfig) (t : Nat → TransportOutcome) :
    (buildQueryString (q1 ++ (k, none) :: q2) = buildQueryString (q1 ++ q2)) ∧
    (definedEntries q ≠ [] →
      splitChar '&' (buildQueryString q).data = (definedEntries q).map encPairChars) ∧
    (splitChar '=' (encPairChars (kk, vv)) = [encodeChars kk.data, encodeChars vv.data]) ∧
    (definedEntries cfg.query ≠ [] →
      (fetchEnhanced url cfg t).requestUrl = url ++ "?" ++ buildQueryString cfg.query) := by
  refine ⟨?_, ?_, ?_, ?_⟩
  · simp [buildQueryString, definedEntries, List.filterMap_append, List.filterMap_cons]
  · intro hne
    show splitChar '&' (joinPieces '&' ((definedEntries q).map encPairChars)) = _
    refine splitChar_joinPieces '&' _ (by simpa using hne) ?_
    intro p hp c hc
    obtain ⟨kv, _, rfl⟩ := List.mem_map.1 hp
    exact encPairChars_amp_free kv c hc
  · show splitChar '=' (encodeChars kk.data ++ '=' :: encodeChars vv.data) = _
    rw [splitChar_append '=' (encodeChars kk.data) (encodeChars vv.data)
      (fun c hc => (encodeChars_sep_free kk.data c hc).2)]
    rw [splitChar_nosep '=' (encodeChars vv.data)
      (fun c hc => (encodeChars_sep_free vv.data c hc).2)]
  · intro hne
    show buildFinalUrl url cfg.query = _
    unfold buildFinalUrl
    rw [if_neg hne]

/-- Witness for C9: the entry with an undefined value is dropped, the
value b&c is percent-encoded as b%26c, and the final URL carries the
serialized query. -/
theorem claim9_query_handling_witness :
    buildQueryString [("a", some "b&c"), ("u", none)] = "a=b%26c" ∧
    splitChar '&' (buildQueryString [("a", some "b&c"), ("u", none)]).data =
      (definedEntries [("a", some "b&c"), ("u", none)]).map encPairChars ∧
    (fetchEnhanced "https://api.example.com/q"
        { query := [("a", some "b&c"), ("u", none)] }
        (fun _ => .throwErr { name := "NetworkError" })).requestUrl =
      "https://api.example.com/q" ++ "?" ++ buildQueryString [("a", some "b&c"), ("u", none)] := by
  have H := claim9_query_handling [] [] "" [("a", some "b&c"), ("u", none)] "" ""
    "https://api.example.com/q" { query := [("a", some "b&c"), ("u", none)] }
    (fun _ => .throwErr { name := "NetworkError" })
  exact ⟨rfl, H.2.1 (by decide), H.2.2.2 (by decide)⟩

/- ===== Relating the fetch.js variant and the part_000 variant ===== -/

theorem docFetchGo_ok (L : LoopCtx) (last : Option JsError) (n fuel : Nat) (v : BodyVal)
    (h : Doc.attemptResult L.validate L.rt (L.t n) = .ok v) :
    Doc.fetchGo L last n (fuel + 1) = { result := .success v, attempts := n, delays := [] } := by
  simp only [Doc.fetchGo]
  rw [h]

theorem docFetchGo_retry (L : LoopCtx) (last : Option JsError) (n fuel : Nat) (e : JsError)
    (h : Doc.attemptResult L.validate L.rt (L.t n) = .error e)
    (hn : n ≤ L.retries) (hf : isFatalError e = false) :
    Doc.fetchGo L last n (fuel + 1) =
      { result := (Doc.fetchGo L (some e) (n + 1) fuel).result,
        attempts := (Doc.fetchGo L (some e) (n + 1) fuel).attempts,
        delays := L.retryDelay * 2 ^ (n - 1) :: (Doc.fetchGo L (some e) (n + 1) fuel).delays } := by
  simp only [Doc.fetchGo]
  rw [h]
  simp [hn, hf]

theorem docFetchGo_stop (L : LoopCtx) (last : Option JsError) (n fuel : Nat) (e : JsError)
    (h : Doc.attemptResult L.validate L.rt (L.t n) = .error e)
    (hc : ¬(n ≤ L.retries ∧ isFatalError e = false)) :
    Doc.fetchGo L last n (fuel + 1) =
      { result := .failure (enhanceError e L.url L.methodCtx n), attempts := n, delays := [] } := by
  simp only [Doc.fetchGo]
  rw [h]
  simp only [if_neg hc]

theorem docParseResponse_eq (r : Response) (rt : ResponseType) :
    Doc.parseResponse r rt = parseResponse r rt := rfl

theorem docParseErrorResponse_eq (r : Response)
    (h : (∃ v, r.jsonBody = .ok v) ∨ (∃ s, r.textBody = .ok s)) :
    Doc.parseErrorResponse r = parseErrorResponse r := by
  rcases hj : r.jsonBody with e1 | v1
  · rcases ht : r.textBody with e2 | v2
    · exfalso
      rcases h with ⟨v, hv⟩ | ⟨s, hs⟩
      · rw [hj] at hv; cases hv
      · rw [ht] at hs; cases hs
    · simp [Doc.parseErrorResponse, parseErrorResponse, hj, ht]
  · simp [Doc.parseErrorResponse, parseErrorResponse, hj]

theorem attemptResult_rel (validate : Nat → Bool) (rt : ResponseType) (o : TransportOutcome) :
    (∃ v, attemptResult validate rt o = .ok v ∧ Doc.attemptResult validate rt o = .ok v) ∨
    (∃ e1 e2, attemptResult validate rt o = .error e1 ∧
      Doc.attemptResult validate rt o = .error e2 ∧
      scrubErr e1 = scrubErr e2 ∧ isFatalError e1 = isFatalError e2) := by
  cases o with
  | throwErr e => exact .inr ⟨e, e, rfl, rfl, rfl, rfl⟩
  | resp r =>
    by_cases hv : validate r.status = true
    · rcases hp : parseResponse r rt with e | v
      · refine .inr ⟨e, e, ?_, ?_, rfl, rfl⟩
        · simp [attemptResult, hv, hp]
        · simp [Doc.attemptResult, hv, docParseResponse_eq, hp]
      · refine .inl ⟨v, ?_, ?_⟩
        · simp [attemptResult, hv, hp]
        · simp [Doc.attemptResult, hv, docParseResponse_eq, hp]
    · refine .inr ⟨mkFetchError ("Request failed with status " ++ toString r.status)
        r.status (parseErrorResponse r),
        mkFetchError ("Request failed with status " ++ toString r.status)
        r.status (Doc.parseErrorResponse r), ?_, ?_, ?_, ?_⟩
      · simp [attemptResult, hv]
      · simp [Doc.attemptResult, hv]
      · simp [scrubErr, mkFetchError]
      · simp [isFatalError, mkFetchError]

theorem attemptResult_eqv (validate : Nat → Bool) (rt : ResponseType) (o : TransportOutcome)
    (h : decodableOutcome o) :
    Doc.attemptResult validate rt o = attemptResult validate rt o := by
  cases o with
  | throwErr e => rfl
  | resp r =>
    by_cases hv : validate r.status = true
    · simp [attemptResult, Doc.attemptResult, hv, docParseResponse_eq]
    · simp [attemptResult, Doc.attemptResult, hv, docParseErrorResponse_eq r h]

theorem fetchGo_scrub (L : LoopCtx) (m2 : String) :
    ∀ fuel n last1 last2, last1.map scrubErr = last2.map scrubErr →
    scrubRes (Doc.fetchGo { L with methodCtx := m2 } last2 n fuel).result =
      scrubRes (fetchGo L last1 n fuel).result ∧
    (Doc.fetchGo { L with methodCtx := m2 } last2 n fuel).attempts =
      (fetchGo L last1 n fuel).attempts ∧
    (Doc.fetchGo { L with methodCtx := m2 } last2 n fuel).delays =
      (fetchGo L last1 n fuel).delays := by
  intro fuel
  induction fuel with
  | zero =>
    intro n last1 last2 hlast
    refine ⟨?_, rfl, rfl⟩
    show scrubRes (.lastErr last2) = scrubRes (.lastErr last1)
    simp [scrubRes, hlast]
  | succ fuel ih =>
    intro n last1 last2 hlast
    rcases attemptResult_rel L.validate L.rt (L.t n) with ⟨v, h1, h2⟩ |
      ⟨e1, e2, h1, h2, hs, hf⟩
    · rw [fetchGo_ok L last1 n fuel v h1,
        docFetchGo_ok { L with methodCtx := m2 } last2 n fuel v h2]
      exact ⟨rfl, rfl, rfl⟩
    · by_cases hc : n ≤ L.retries ∧ isFatalError e1 = false
      · rw [fetchGo_retry L last1 n fuel e1 h1 hc.1 hc.2,
          docFetchGo_retry { L with methodCtx := m2 } last2 n fuel e2 h2 hc.1
            (by rw [← hf]; exact hc.2)]
        have hrec := ih (n + 1) (some e1) (some e2) (by simpa using hs)
        exact ⟨hrec.1, hrec.2.1, by rw [hrec.2.2]⟩
      · have hc2 : ¬(n ≤ L.retries ∧ isFatalError e2 = false) := by
          intro hx
          exact hc ⟨hx.1, by rw [hf]; exact hx.2⟩
        rw [fetchGo_stop L last1 n fuel e1 h1 hc,
          docFetchGo_stop { L with methodCtx := m2 } last2 n fuel e2 h2 hc2]
        refine ⟨?_, rfl, rfl⟩
        have hname : e1.name = e2.name := by
          have := congrArg JsError.name hs
          simpa [scrubErr] using this
        have hmsg : e1.message = e2.message := by
          have := congrArg JsError.message hs
          simpa [scrubErr] using this
        have htype : e1.isTypeError = e2.isTypeError := by
          have := congrArg JsError.isTypeError hs
          simpa [scrubErr] using this
        have hstatus : e1.status = e2.status := by
          have := congrArg JsError.status hs
          simpa [scrubErr] using this
        show scrubRes (.failure (enhanceError e2 L.url m2 n)) =
          scrubRes (.failure (enhanceError e1 L.url L.methodCtx n))
        simp [scrubRes, scrubErr, enhanceError, hname, hmsg, htype, hstatus]

theorem fetchGo_eqv (L : LoopCtx) (hdec : ∀ n, decodableOutcome (L.t n)) :
    ∀ fuel n last, Doc.fetchGo L last n fuel = fetchGo L last n fuel := by
  intro fuel
  induction fuel with
  | zero => intro n last; rfl
  | succ fuel ih =>
    intro n last
    rcases h : attemptResult L.validate L.rt (L.t n) with e | v
    · have h2 : Doc.attemptResult L.validate L.rt (L.t n) = .error e := by
        rw [attemptResult_eqv L.validate L.rt (L.t n) (hdec n), h]
      by_cases hc : n ≤ L.retries ∧ isFatalError e = false
      · rw [fetchGo_retry L last n fuel e h hc.1 hc.2,
          docFetchGo_retry L last n fuel e h2 hc.1 hc.2, ih]
      · rw [fetchGo_stop L last n fuel e h hc, docFetchGo_stop L last n fuel e h2 hc]
    · have h2 : Doc.attemptResult L.validate L.rt (L.t n) = .ok v := by
        rw [attemptResult_eqv L.validate L.rt (L.t n) (hdec n), h]
      rw [fetchGo_ok L last n fuel v h, docFetchGo_ok L last n fuel v h2]

theorem buildOptions_method (cfg : FetchConfig) :
    (buildOptions cfg).method = jsToUpper cfg.method := by
  rcases hb : cfg.body with _ | b <;> simp only [buildOptions, hb]
  split
  · cases b <;> rfl
  · rfl

/-- Counterexample for C10 as stated: with method given as post and an
always-failing transport, the two variants surface different errors (the
fetch.js error carries method post, the part_000 error carries POST), so
they do not produce the same result on every input. -/
theorem claim10_counterexample :
    (Doc.fetchEnhanced "https://api.example.com/r" { method := "post", retries := 0 }
        (fun _ => .throwErr { name := "NetworkError" })).result ≠
    (fetchEnhanced "https://api.example.com/r" { method := "post", retries := 0 }
        (fun _ => .throwErr { name := "NetworkError" })).result := by
  decide

/-- C10 (amended): on every input the two fetchEnhanced variants build the
same URL and options and produce the same attempt count, the same backoff
delays and the same result up to the surfaced error method and data
fields (fetch.js encloses the caller method and a null payload on a
doubly undecodable rejected body; part_000 encloses the normalized method
and a descriptive string there); when the caller method is already
uppercase and every produced response body is decodable, the two variants
agree exactly. -/
theorem claim10_variant_refinement (url : String) (cfg : FetchConfig)
    (t : Nat → TransportOutcome) :
    ((Doc.fetchEnhanced url cfg t).requestUrl = (fetchEnhanced url cfg t).requestUrl ∧
     (Doc.fetchEnhanced url cfg t).options = (fetchEnhanced url cfg t).options ∧
     (Doc.fetchEnhanced url cfg t).attempts = (fetchEnhanced url cfg t).attempts ∧
     (Doc.fetchEnhanced url cfg t).delays = (fetchEnhanced url cfg t).delays ∧
     scrubRes (Doc.fetchEnhanced url cfg t).result = scrubRes (fetchEnhanced url cfg t).result) ∧
    (jsToUpper cfg.method = cfg.method → (∀ n, decodableOutcome (t n)) →
      Doc.fetchEnhanced url cfg t = fetchEnhanced url cfg t) := by
  constructor
  · have h := fetchGo_scrub
      (L := { t := t, validate := cfg.validateStatus, rt := cfg.responseType,
              retries := cfg.retries, retryDelay := cfg.retryDelay,
              url := buildFinalUrl url cfg.query, methodCtx := cfg.method })
      ((buildOptions cfg).method) (cfg.retries + 1) 1 none none rfl
    exact ⟨rfl, rfl, h.2.1, h.2.2, h.1⟩
  · intro hm hdec
    have hL : ({ t := t, validate := cfg.validateStatus, rt := cfg.responseType,
                 retries := cfg.retries, retryDelay := cfg.retryDelay,
                 url := buildFinalUrl url cfg.query,
                 methodCtx := (buildOptions cfg).method } : LoopCtx) =
              { t := t, validate := cfg.validateStatus, rt := cfg.responseType,
                retries := cfg.retries, retryDelay := cfg.retryDelay,
                url := buildFinalUrl url cfg.query, methodCtx := cfg.method } := by
      rw [buildOptions_method cfg, hm]
    simp only [Doc.fetchEnhanced, fetchEnhanced]
    rw [hL]
    rw [fetchGo_eqv
      ({ t := t, validate := cfg.validateStatus, rt := cfg.responseType,
         retries := cfg.retries, retryDelay := cfg.retryDelay,
         url := buildFinalUrl url cfg.query, methodCtx := cfg.method }) hdec]

/-- Witness for C10: with an uppercase method and a transport whose only
outcome is a thrown error, the two variants agree exactly. -/
theorem claim10_variant_refinement_witness :
    Doc.fetchEnhanced "https://api.example.com/r" { method := "GET", retries := 1 }
        (fun _ => .throwErr { name := "NetworkError" }) =
      fetchEnhanced "https://api.example.com/r" { method := "GET", retries := 1 }
        (fun _ => .throwErr { name := "NetworkError" }) :=
  (claim10_variant_refinement "https://api.example.com/r" { method := "GET", retries := 1 }
    (fun _ => .throwErr { name := "NetworkError" })).2 rfl (fun _ => trivial)
